import Mathlib

/-
Verification of the Blue-Flag-Beaches-Greece weather updater and its
coordinate-keyed cache, as a shallow embedding of the Python sources
(weather_updater.py, mobile_beach_app.py, flag.py).

Embedding conventions:
* Python floats (coordinates, temperatures, distances) are embedded as exact
  rationals; Python round is embedded as exact decimal round-half-to-even,
  and float formatting as the minimal decimal string of the rounded rational
  (with at least one fractional digit, as Python repr of a float prints).
* Python dicts are embedded as insertion-ordered association lists with
  first-match lookup; assignment replaces in place, insertion appends.
* ISO-8601 timestamp strings are embedded as FieldValue.time (some t) with
  t in epoch seconds when the string is parseable, FieldValue.time none for
  an unparseable string (datetime.fromisoformat raising).
* HTTP is embedded as an oracle giving, per attempt index, the outcome of
  each endpoint request (timeout / connection error exceptions, or a
  response with status code and decoded body).
* sqrt-based distance comparisons (dist < c with c at least 0) are embedded
  as comparisons of squares, which is equivalent on nonnegative reals.
-/

set_option maxHeartbeats 1000000

attribute [local semireducible] Rat.add Rat.sub Rat.mul Rat.inv Rat.ofScientific

/-! ## Python dict embedding (insertion-ordered association lists) -/

/-- First-match association-list lookup: `d.get(k)` / `k in d` on a Python
dict embedded as an insertion-ordered list of key-value pairs. -/
def dictGet {α : Type} : List (String × α) → String → Option α
  | [], _ => none
  | p :: t, k => if p.1 = k then some p.2 else dictGet t k

/-- Python dict assignment `d[k] = v`: replace in place if the key exists,
otherwise append at the end (insertion order). -/
def setKey {α : Type} (d : List (String × α)) (k : String) (v : α) :
    List (String × α) :=
  if d.any (fun p => p.1 == k) then
    d.map (fun p => if p.1 = k then (k, v) else p)
  else
    d ++ [(k, v)]

/-- Python `existing.update(updates)` (weather_updater.py line 424): assign
every key-value pair of `updates` into `existing`. -/
def dictUpdate {α : Type} (existing updates : List (String × α)) :
    List (String × α) :=
  updates.foldl (fun acc p => setKey acc p.1 p.2) existing

/-- The keys of an embedded dict, in order. -/
def keysOf {α : Type} (d : List (String × α)) : List String :=
  d.map Prod.fst

/-- Left-biased choice on options (first dict that has the key wins). -/
def oget {α : Type} (a b : Option α) : Option α :=
  match a with
  | some v => some v
  | none => b

theorem oget_some {α : Type} (v : α) (b : Option α) : oget (some v) b = some v := rfl

theorem oget_none {α : Type} (b : Option α) : oget none b = b := rfl

theorem keysOf_nil {α : Type} : keysOf ([] : List (String × α)) = [] := rfl

theorem keysOf_cons {α : Type} (p : String × α) (t : List (String × α)) :
    keysOf (p :: t) = p.1 :: keysOf t := rfl

theorem dictGet_append {α : Type} (a b : List (String × α)) (k : String) :
    dictGet (a ++ b) k = oget (dictGet a k) (dictGet b k) := by
  induction a with
  | nil => simp [dictGet, oget]
  | cons p t ih =>
      by_cases h : p.1 = k
      · simp [dictGet, h, oget]
      · simp [dictGet, h, ih]

theorem mem_keysOf_iff_any {α : Type} (d : List (String × α)) (k : String) :
    k ∈ keysOf d ↔ (d.any fun p => p.1 == k) = true := by
  induction d with
  | nil => simp [keysOf]
  | cons p t ih =>
      rw [keysOf_cons, List.any_cons]
      simp only [List.mem_cons, Bool.or_eq_true, beq_iff_eq]
      constructor
      · rintro (h | h)
        · exact Or.inl h.symm
        · exact Or.inr (ih.mp h)
      · rintro (h | h)
        · exact Or.inl h.symm
        · exact Or.inr (ih.mpr h)

theorem dictGet_eq_none_of_not_mem {α : Type} (d : List (String × α)) (k : String)
    (h : k ∉ keysOf d) : dictGet d k = none := by
  induction d with
  | nil => rfl
  | cons p t ih =>
      have h1 : ¬ p.1 = k := by
        intro hc
        exact h (by rw [keysOf_cons, hc]; exact List.mem_cons_self k _)
      have h2 : k ∉ keysOf t := by
        intro hc
        exact h (by rw [keysOf_cons]; exact List.mem_cons_of_mem _ hc)
      simp [dictGet, h1, ih h2]

theorem dictGet_mapset_self {α : Type} (d : List (String × α)) (k : String) (v : α)
    (hm : k ∈ keysOf d) :
    dictGet (d.map (fun p => if p.1 = k then (k, v) else p)) k = some v := by
  induction d with
  | nil => simp [keysOf] at hm
  | cons p t ih =>
      by_cases hp : p.1 = k
      · simp [dictGet, hp]
      · have hm' : k ∈ keysOf t := by
          rw [keysOf_cons] at hm
          rcases List.mem_cons.mp hm with h | h
          · exact absurd h.symm hp
          · exact h
        simp [dictGet, hp, ih hm']

theorem dictGet_mapset_ne {α : Type} (d : List (String × α)) (k k' : String) (v : α)
    (h : k' ≠ k) :
    dictGet (d.map (fun p => if p.1 = k then (k, v) else p)) k' = dictGet d k' := by
  induction d with
  | nil => rfl
  | cons p t ih =>
      show dictGet ((if p.1 = k then (k, v) else p) ::
        t.map (fun p => if p.1 = k then (k, v) else p)) k' = dictGet (p :: t) k'
      by_cases hp : p.1 = k
      · rw [if_pos hp]
        have h1 : ¬ k = k' := fun hc => h hc.symm
        have h2 : ¬ p.1 = k' := by rw [hp]; exact h1
        simp [dictGet, h1, h2, ih]
      · rw [if_neg hp]
        by_cases hp' : p.1 = k'
        · simp [dictGet, hp']
        · simp [dictGet, hp', ih]

theorem dictGet_setKey_self {α : Type} (d : List (String × α)) (k : String) (v : α) :
    dictGet (setKey d k v) k = some v := by
  unfold setKey
  by_cases hm : k ∈ keysOf d
  · rw [if_pos ((mem_keysOf_iff_any d k).mp hm)]
    exact dictGet_mapset_self d k v hm
  · rw [if_neg (fun hc => hm ((mem_keysOf_iff_any d k).mpr hc))]
    rw [dictGet_append, dictGet_eq_none_of_not_mem d k hm]
    simp [dictGet, oget]

theorem dictGet_setKey_ne {α : Type} (d : List (String × α)) (k k' : String) (v : α)
    (h : k' ≠ k) : dictGet (setKey d k v) k' = dictGet d k' := by
  unfold setKey
  by_cases hm : k ∈ keysOf d
  · rw [if_pos ((mem_keysOf_iff_any d k).mp hm)]
    exact dictGet_mapset_ne d k k' v h
  · rw [if_neg (fun hc => hm ((mem_keysOf_iff_any d k).mpr hc))]
    rw [dictGet_append]
    have h1 : ¬ k = k' := fun hc => h hc.symm
    have h2 : dictGet [(k, v)] k' = none := by simp [dictGet, h1]
    rw [h2]
    cases dictGet d k' <;> simp [oget]

/-- Characterization of Python `dict.update`: when the update's keys are
distinct (true of any real dict), lookup in the merged dict is lookup in the
updates first, falling back to the existing dict. -/
theorem dictGet_dictUpdate {α : Type} (existing updates : List (String × α))
    (hu : (keysOf updates).Nodup) (k : String) :
    dictGet (dictUpdate existing updates) k =
      oget (dictGet updates k) (dictGet existing k) := by
  induction updates generalizing existing with
  | nil => simp [dictUpdate, dictGet, oget]
  | cons p t ih =>
      rw [keysOf_cons, List.nodup_cons] at hu
      have step : dictUpdate existing (p :: t) =
          dictUpdate (setKey existing p.1 p.2) t := rfl
      rw [step, ih (setKey existing p.1 p.2) hu.2]
      by_cases h : p.1 = k
      · subst h
        have ht : dictGet t p.1 = none :=
          dictGet_eq_none_of_not_mem t p.1 hu.1
        simp [dictGet, ht, oget, dictGet_setKey_self]
      · rw [dictGet_setKey_ne existing p.1 k p.2 (fun hc => h hc.symm)]
        simp [dictGet, h]

/-! ## Rational embedding of Python round and float formatting -/

/-- Floor of a rational as an integer (exact). -/
def ratFloorZ (q : ℚ) : ℤ := Int.fdiv q.num (q.den : ℤ)

/-- Round half to even on rationals: the embedding of Python built-in round
to an integer. -/
def roundHalfEven (x : ℚ) : ℤ :=
  let n := ratFloorZ x
  let f := x - (n : ℚ)
  if f < 1/2 then n
  else if 1/2 < f then n + 1
  else if n % 2 = 0 then n else n + 1

/-- `round(q, d)` from Python, embedded as exact decimal rounding. -/
def pyRound (q : ℚ) (d : Nat) : ℚ :=
  (roundHalfEven (q * 10 ^ d) : ℚ) / 10 ^ d

/-- Pad a digit string on the left with zeros to 7 characters. -/
def pad7 (s : String) : String :=
  String.mk (List.replicate (7 - s.length) '0') ++ s

/-- Strip trailing zeros from a digit string, keeping at least one digit. -/
def stripZeros (s : String) : String :=
  match s.toList.reverse.dropWhile (fun c => c == '0') with
  | [] => "0"
  | l => String.mk l.reverse

/-- Embedding of Python float formatting (f-string / repr) for coordinates
whose value is a decimal with at most 7 fractional digits: minimal decimal
digits with at least one fractional digit (`36.5` prints as the string
36.5, a whole number as 36.0). -/
def fmtQ (q : ℚ) : String :=
  let sign := if q < 0 then "-" else ""
  let a : ℚ := |q|
  let ip : ℕ := (ratFloorZ a).toNat
  let fr : ℕ := (ratFloorZ ((a - (ip : ℚ)) * 10 ^ 7)).toNat
  sign ++ toString ip ++ "." ++ stripZeros (pad7 (toString fr))

/-- Digits of a decimal string to a natural number. -/
def digitsToNat (l : List Char) : ℕ :=
  l.foldl (fun acc c => acc * 10 + (c.toNat - 48)) 0

/-- Python `s.split(sep)` for a one-character separator, on char lists. -/
def splitOnChar (c : Char) : List Char → List (List Char)
  | [] => [[]]
  | x :: xs =>
      match splitOnChar c xs with
      | [] => [[]]
      | h :: t => if x == c then [] :: h :: t else (x :: h) :: t

/-- Embedding of Python `float(s)` for plain decimal strings: optional sign,
integer digits, optional decimal point and fraction digits; the value is the
exact rational the digits denote. Strings in any other shape (exponents,
infinities, stray characters) are rejected, matching the `try/except` skip
that guards every call site in the sources. -/
def parseQ (s : String) : Option ℚ :=
  let split : Bool × List Char :=
    match s.toList with
    | '-' :: t => (true, t)
    | '+' :: t => (false, t)
    | l => (false, l)
  let body := split.2
  let val? : Option ℚ :=
    match splitOnChar '.' body with
    | [i] =>
        if i.all (fun c => c.isDigit) && decide (0 < i.length) then
          some (mkRat (digitsToNat i) 1)
        else none
    | [i, f] =>
        if i.all (fun c => c.isDigit) && f.all (fun c => c.isDigit)
            && decide (0 < i.length + f.length) then
          some (mkRat (digitsToNat i * 10 ^ f.length + digitsToNat f) (10 ^ f.length))
        else none
    | _ => none
  val?.map (fun v => if split.1 then -v else v)

/-- Parse a cache key of the shape lat_lon into its two coordinates;
embedding of `map(float, weather_key.split(_))` with its surrounding
`try/except` (mobile_beach_app.py line 62, flag.py lines 466-468). -/
def splitKey (s : String) : Option (ℚ × ℚ) :=
  match splitOnChar '_' s.toList with
  | [a, b] =>
      match parseQ (String.mk a), parseQ (String.mk b) with
      | some x, some y => some (x, y)
      | _, _ => none
  | _ => none

/-- Cache key at a decimal precision (weather_updater.py line 410):
the f-string of the two rounded coordinates joined by an underscore. -/
def mkKey (lat lon : ℚ) (d : Nat) : String :=
  fmtQ (pyRound lat d) ++ "_" ++ fmtQ (pyRound lon d)

/-- The primary 6-decimal key used by the staleness filter
(weather_updater.py line 378). -/
def primaryKey (lat lon : ℚ) : String := mkKey lat lon 6

example : fmtQ (73/2) = "36.5" := by decide
example : fmtQ 36 = "36.0" := by decide
example : fmtQ (360001/10000) = "36.0001" := by decide
example : fmtQ (-365/10) = "-36.5" := by decide
example : parseQ "36.0005" = some (360005/10000) := by decide
example : parseQ "-23.5" = some (-47/2) := by decide
example : parseQ "abc" = none := by decide
example : splitKey "36.5_23.0" = some (73/2, 23) := by decide
example : splitKey "36.5" = none := by decide
example : pyRound (365/100) 1 = 18/5 := by decide
example : primaryKey 36 23 = "36.0_23.0" := by decide

/-! ## Weather records: Python dicts with the eleven fields -/

/-- A value stored in a weather record: a number, a string (the N/A
sentinel, the beach name), or an embedded timestamp (some t when the
ISO-8601 string parses to epoch second t, none when unparseable). -/
inductive FieldValue where
  | num (q : ℚ)
  | str (s : String)
  | time (t : Option ℤ)
deriving DecidableEq

abbrev WeatherRecord := List (String × FieldValue)

abbrev WeatherCache := List (String × WeatherRecord)

/-- The sentinel the sources store for data they could not obtain. -/
def na : FieldValue := FieldValue.str "N/A"

/-- The eleven field names of a weather record, in construction order
(weather_updater.py lines 148-160). -/
def fieldNames : List String :=
  ["beach_name", "latitude", "longitude", "air_temp", "wind_speed",
   "wind_direction", "wave_height", "wave_direction", "wave_period",
   "sea_temp", "last_updated"]

/-- The record initialized at the top of each fetch attempt
(weather_updater.py lines 148-160): every field present, the data fields at
the sentinel. -/
def initRecord (beachName : String) (lat lon : ℚ) (now : ℤ) : WeatherRecord :=
  [("beach_name", FieldValue.str beachName),
   ("latitude", FieldValue.num lat),
   ("longitude", FieldValue.num lon),
   ("air_temp", na), ("wind_speed", na), ("wind_direction", na),
   ("wave_height", na), ("wave_direction", na), ("wave_period", na),
   ("sea_temp", na),
   ("last_updated", FieldValue.time (some now))]

/-- Decoded body of the atmospheric-forecast response: each current value
present or absent/null. -/
structure WeatherBody where
  temperature_2m : Option ℚ
  wind_speed_10m : Option ℚ
  wind_direction_10m : Option ℚ
deriving DecidableEq

/-- Decoded body of the marine-forecast response. -/
structure MarineBody where
  wave_height : Option ℚ
  wave_direction : Option ℚ
  wave_period : Option ℚ
deriving DecidableEq

/-- Outcome of one HTTP request: a raised timeout, a raised connection
error, or a response bearing a status code and decoded body. -/
inductive HttpResult (β : Type) where
  | timeout
  | connError
  | resp (status : Nat) (body : β)
deriving DecidableEq

/-- The HTTP world one location's fetch runs against: per attempt index,
what each endpoint returns. seaFallback is get_sea_temp_open_meteo
(weather_updater.py lines 93-108) collapsed to its result: some t when the
marine API answers 200 with a sea temperature, none otherwise (that helper
catches its own exceptions and returns the sentinel). -/
structure FetchEnv where
  weather : Nat → HttpResult WeatherBody
  marine : Nat → HttpResult MarineBody
  seaFallback : Nat → Option ℚ

/-- round(x, 1) when the provider value is present, the sentinel otherwise
(weather_updater.py lines 167-168, 179, 181). -/
def roundOpt1 (v : Option ℚ) : FieldValue :=
  match v with
  | some x => FieldValue.num (pyRound x 1)
  | none => na

/-- A provider value stored unrounded, the sentinel when absent (the two
direction fields, lines 169 and 180). -/
def rawOpt (v : Option ℚ) : FieldValue :=
  match v with
  | some x => FieldValue.num x
  | none => na

/-- Lines 163-169: on a 200 status the three atmospheric fields are
assigned; on any other status nothing is assigned and the fields keep the
sentinel from initialization. -/
def applyWeather (r : WeatherRecord) (status : Nat) (b : WeatherBody) :
    WeatherRecord :=
  if status = 200 then
    let r1 := setKey r "air_temp" (roundOpt1 b.temperature_2m)
    let r2 := setKey r1 "wind_speed" (roundOpt1 b.wind_speed_10m)
    setKey r2 "wind_direction" (rawOpt b.wind_direction_10m)
  else r

/-- Lines 175-181: same for the three wave fields of the marine response. -/
def applyMarine (r : WeatherRecord) (status : Nat) (b : MarineBody) :
    WeatherRecord :=
  if status = 200 then
    let r1 := setKey r "wave_height" (roundOpt1 b.wave_height)
    let r2 := setKey r1 "wave_direction" (rawOpt b.wave_direction)
    setKey r2 "wave_period" (roundOpt1 b.wave_period)
  else r

/-- One point of the bulk NOAA sea-surface-temperature grid. -/
structure GridPoint where
  glat : ℚ
  glon : ℚ
  temp : ℚ
deriving DecidableEq

/-- The nearest-grid-point scan (lines 188-195): state is the squared
distance and temperature of the closest point so far (min_distance starts
at infinity, so the first point always wins). -/
def nearestSeaTemp (lat lon : ℚ) (grid : List GridPoint) : Option (ℚ × ℚ) :=
  grid.foldl
    (fun st p =>
      let dsq := (p.glat - lat) ^ 2 + (p.glon - lon) ^ 2
      match st with
      | none => some (dsq, p.temp)
      | some (best, t) => if dsq < best then some (dsq, p.temp) else some (best, t))
    none

/-- Sea-temperature selection (lines 183-210): the NOAA grid value when the
nearest grid point is strictly within 2.0 degrees (squared: 4), else the
Open-Meteo fallback rounded to 1 decimal, else the sentinel. -/
def seaTempValue (lat lon : ℚ) (grid : Option (List GridPoint))
    (fallback : Option ℚ) : FieldValue :=
  let noaa : Option ℚ :=
    match grid with
    | none => none
    | some g =>
        match nearestSeaTemp lat lon g with
        | some (dsq, t) => if dsq < 4 then some t else none
        | none => none
  match noaa with
  | some t => FieldValue.num t
  | none =>
      match fallback with
      | some t => FieldValue.num (pyRound t 1)
      | none => na

/-- One attempt of get_weather_data (lines 136-213): the weather request,
then the marine request, then the sea-temperature enrichment. A raised
timeout or connection error on either request aborts the attempt (none,
and the marine request is never issued if the weather request raised); a
non-200 status does not raise and leaves that endpoint's fields at the
sentinel. -/
def runAttempt (env : FetchEnv) (beachName : String) (lat lon : ℚ)
    (grid : Option (List GridPoint)) (now : ℤ) (i : Nat) :
    Option WeatherRecord :=
  match env.weather i with
  | HttpResult.timeout => none
  | HttpResult.connError => none
  | HttpResult.resp ws wb =>
      match env.marine i with
      | HttpResult.timeout => none
      | HttpResult.connError => none
      | HttpResult.resp ms mb =>
          let r0 := initRecord beachName lat lon now
          let r1 := applyWeather r0 ws wb
          let r2 := applyMarine r1 ms mb
          some (setKey r2 "sea_temp" (seaTempValue lat lon grid (env.seaFallback i)))

/-- What one location's fetch did: the returned record (none = all attempts
raised and the location's update failed), how many attempts ran, and the
backoff sleeps taken. -/
structure FetchOut where
  result : Option WeatherRecord
  attempts : Nat
  delays : List ℚ
deriving DecidableEq

/-- The retry loop of get_weather_data (lines 132-226): max_retries = 3
attempts, and before retry attempt i the code sleeps
base_delay * 2 ^ i seconds with base_delay = 2 (line 139). -/
def fetchLoop (env : FetchEnv) (beachName : String) (lat lon : ℚ)
    (grid : Option (List GridPoint)) (now : ℤ) : Nat → Nat → FetchOut
  | i, 0 => ⟨none, i, []⟩
  | i, remaining + 1 =>
      let ds : List ℚ := if 0 < i then [2 * 2 ^ i] else []
      match runAttempt env beachName lat lon grid now i with
      | some r => ⟨some r, i + 1, ds⟩
      | none =>
          if remaining = 0 then ⟨none, i + 1, ds⟩
          else
            let rest := fetchLoop env beachName lat lon grid now (i + 1) remaining
            ⟨rest.result, rest.attempts, ds ++ rest.delays⟩

/-- get_weather_data (weather_updater.py lines 130-226). -/
def getWeatherData (env : FetchEnv) (beachName : String) (lat lon : ℚ)
    (grid : Option (List GridPoint)) (now : ℤ) : FetchOut :=
  fetchLoop env beachName lat lon grid now 0 3

/-! ## Batch Update Engine: update_weather_cache (lines 245-450) -/

/-- A unique beach location from the registry slice being processed. -/
structure BeachLoc where
  name : String
  lat : ℚ
  lon : ℚ
deriving DecidableEq

/-- should_update_beach (lines 110-128): a location needs updating unless
its record exists, its last_updated parses, and the age in hours is
strictly below 6; a missing record, a missing field or an unparseable
timestamp all fall through to true. -/
def shouldUpdateBeach (existing : WeatherCache) (beachKey : String)
    (now : ℤ) : Bool :=
  match dictGet existing beachKey with
  | none => true
  | some r =>
      match dictGet r "last_updated" with
      | some (FieldValue.time (some t)) =>
          if ((now - t : ℤ) : ℚ) / 3600 < 6 then false else true
      | _ => true

/-- How the run hands control back to the invoking process. -/
inductive RunOutcome where
  | normalReturn
  | raised
deriving DecidableEq

/-- The world one engine run executes in: whether the registry CSV exists,
whether the cache path is writable, the batch's unique locations, the
loaded cache, the wall clock, and the per-location outcome of
get_weather_data in completion order. -/
structure RunEnv where
  csvExists : Bool
  writable : Bool
  locations : List BeachLoc
  existing : WeatherCache
  now : ℤ
  fetch : BeachLoc → Option WeatherRecord

/-- What a run did: how it exited, the cache written to disk (none = the
file was not touched), how many get_weather_data invocations ran (each is
what issues weather/marine endpoint requests), and whether the bulk NOAA
sea-temperature fetch ran. -/
structure RunResult where
  outcome : RunOutcome
  persisted : Option WeatherCache
  fetchCalls : Nat
  seaTempFetchPerformed : Bool
deriving DecidableEq

/-- The staleness filter (lines 374-381). -/
def staleLocations (env : RunEnv) : List BeachLoc :=
  env.locations.filter
    (fun l => shouldUpdateBeach env.existing (primaryKey l.lat l.lon) env.now)

/-- Lines 409-412: store one successful record under the precision keys in
ds, in order, skipping any key already written this run (the
`if key not in new_weather_data` guard). -/
def insertRecordKeys (lat lon : ℚ) (r : WeatherRecord) :
    List Nat → WeatherCache → WeatherCache
  | [], acc => acc
  | d :: ds, acc =>
      let key := mkKey lat lon d
      insertRecordKeys lat lon r ds
        (if (dictGet acc key).isSome then acc else acc ++ [(key, r)])

/-- Lines 402-421, one completed future: a failed fetch (None) is skipped
and the loop continues; a successful record is stored under the five
precision keys 7, 6, 5, 4, 3. -/
def buildStep (acc : WeatherCache) (p : BeachLoc × Option WeatherRecord) :
    WeatherCache :=
  match p.2 with
  | some r => insertRecordKeys p.1.lat p.1.lon r [7, 6, 5, 4, 3] acc
  | none => acc

/-- new_weather_data over the run's results in completion order. -/
def buildNewData (results : List (BeachLoc × Option WeatherRecord)) :
    WeatherCache :=
  results.foldl buildStep []

/-- update_weather_cache (lines 245-450), from the point where the batch's
unique locations are fixed. A missing registry CSV logs an error and
returns (lines 251-253). When zero locations pass the staleness filter the
function returns at line 385 without touching the cache file. Otherwise
each stale location is fetched, the results are keyed and merged over the
existing cache (lines 407-425), and the file is written (lines 428-430);
an unwritable target makes open() raise and nothing catches it. The NOAA
bulk sea-temperature fetch (line 368) runs before the staleness filter and
is recorded separately in seaTempFetchPerformed. -/
def updateWeatherCacheRun (env : RunEnv) : RunResult :=
  if env.csvExists then
    let stale := staleLocations env
    if stale = [] then ⟨RunOutcome.normalReturn, none, 0, true⟩
    else
      let results := stale.map (fun l => (l, env.fetch l))
      let newData := buildNewData results
      let merged := dictUpdate env.existing newData
      if env.writable then ⟨RunOutcome.normalReturn, some merged, stale.length, true⟩
      else ⟨RunOutcome.raised, none, stale.length, true⟩
  else ⟨RunOutcome.normalReturn, none, 0, false⟩

/-! ## The save step as file-system effects (lines 427-430) -/

/-- A file-system operation the save step could perform. -/
inductive FsOp where
  | write (path content : String)
  | rename (src dst : String)
deriving DecidableEq

/-- The canonical cache path (relative to the working directory). -/
def cacheFileName : String := "weather_cache.json"

/-- The save step of update_weather_cache (lines 428-430): one direct
open-and-write of the serialized mapping to the canonical path. There is
no temporary file and no rename. -/
def saveCacheEffects (serialized : String) : List FsOp :=
  [FsOp.write cacheFileName serialized]

/-- Content of the canonical file if the process dies after k characters of
the save have been written: open(path, w) truncates at once, so the file
holds a prefix of the new content and none of the old. -/
def crashedFile (newContent : String) (k : Nat) : String :=
  String.mk (newContent.toList.take k)

/-! ## Fuzzy Lookup Matchers -/

/-- The rounded-key fallback of find_closest_weather_match
(mobile_beach_app.py lines 49-54): try each precision in order and return
the first cache hit. -/
def findByRounding (lat lon : ℚ) (cache : WeatherCache) :
    List Nat → Option WeatherRecord
  | [] => none
  | d :: ds =>
      match dictGet cache (mkKey lat lon d) with
      | some r => some r
      | none => findByRounding lat lon cache ds

/-- Squared planar distance from the query point to a cache coordinate;
the code compares square roots of this, which orders identically. -/
def distSq (lat lon clat clon : ℚ) : ℚ :=
  (lat - clat) ^ 2 + (lon - clon) ^ 2

/-- One step of the nearest-entry scan (mobile_beach_app.py lines 60-69):
skip entries whose key does not parse; take an entry when it is strictly
within tolerance and strictly closer than the best so far
(closest_distance starts at infinity, modeled as none, against which the
second conjunct of the code's test is vacuous). -/
def scanStep (lat lon tol : ℚ) (st : Option ℚ × WeatherRecord)
    (p : String × WeatherRecord) : Option ℚ × WeatherRecord :=
  match splitKey p.1 with
  | none => st
  | some (clat, clon) =>
      let dsq := distSq lat lon clat clon
      match st.1 with
      | none => if dsq < tol ^ 2 then (some dsq, p.2) else st
      | some best => if dsq < tol ^ 2 ∧ dsq < best then (some dsq, p.2) else st

/-- The full nearest-entry scan: fold over the cache in iteration order,
starting from no best and the empty dict. -/
def scanClosest (lat lon tol : ℚ) (cache : WeatherCache) :
    Option ℚ × WeatherRecord :=
  cache.foldl (scanStep lat lon tol) (none, [])

/-- find_closest_weather_match (mobile_beach_app.py lines 43-71): an empty
cache returns the empty dict; then rounded keys at precisions 6, 5, 4, 3;
then the nearest strictly-within-tolerance entry, the empty dict when none
qualifies. The tolerance parameter defaults to 0.01 degrees at the
call sites. -/
def findClosestWeatherMatch (lat lon : ℚ) (cache : WeatherCache)
    (tol : ℚ) : WeatherRecord :=
  if cache = [] then []
  else
    match findByRounding lat lon cache [6, 5, 4, 3] with
    | some r => r
    | none => (scanClosest lat lon tol cache).2

/-- The box test of find_weather_for_beach (flag.py line 471) on one cache
entry; false also covers the skipped keys (no underscore, unparseable). -/
def boxHit (lat lon : ℚ) (p : String × WeatherRecord) : Bool :=
  match splitKey p.1 with
  | none => false
  | some (clat, clon) =>
      decide (|clat - lat| < 1/1000) && decide (|clon - lon| < 1/1000)

/-- The fallback loop of find_weather_for_beach (flag.py lines 461-475):
the first entry in iteration order that lies in the 0.001-degree box. -/
def boxScan (lat lon : ℚ) : WeatherCache → Option WeatherRecord
  | [] => none
  | p :: t => if boxHit lat lon p then some p.2 else boxScan lat lon t

/-- find_weather_for_beach (flag.py lines 447-477): the exact key, then the
full-precision key (identical in this embedding, float() being the
identity on a float), then the first entry within the 0.001-degree box,
else None. -/
def findWeatherForBeach (lat lon : ℚ) (cache : WeatherCache) :
    Option WeatherRecord :=
  let exactKey := fmtQ lat ++ "_" ++ fmtQ lon
  match dictGet cache exactKey with
  | some r => some r
  | none =>
      let fullKey := fmtQ lat ++ "_" ++ fmtQ lon
      match dictGet cache fullKey with
      | some r => some r
      | none => boxScan lat lon cache

/-! ## Lemmas on key insertion and the run's update set -/

theorem dictGet_none_iff {α : Type} (d : List (String × α)) (k : String) :
    dictGet d k = none ↔ k ∉ keysOf d := by
  induction d with
  | nil => simp [dictGet, keysOf]
  | cons p t ih =>
      by_cases hp : p.1 = k
      · subst hp
        simp [dictGet, keysOf_cons]
      · have h1 : ¬ k = p.1 := fun hc => hp hc.symm
        simp [dictGet, hp, keysOf_cons, ih, h1]

/-- The five precision keys one successful location writes. -/
def precisionKeys (lat lon : ℚ) : List String :=
  [7, 6, 5, 4, 3].map (fun d => mkKey lat lon d)

theorem dictGet_insertRecordKeys (lat lon : ℚ) (r : WeatherRecord)
    (ds : List Nat) (acc : WeatherCache) (k : String) :
    dictGet (insertRecordKeys lat lon r ds acc) k =
      oget (dictGet acc k)
        (if k ∈ ds.map (fun d => mkKey lat lon d) then some r else none) := by
  induction ds generalizing acc with
  | nil =>
      show dictGet acc k = oget (dictGet acc k) _
      cases dictGet acc k <;> simp [oget]
  | cons d ds ih =>
      show dictGet (insertRecordKeys lat lon r ds
        (if (dictGet acc (mkKey lat lon d)).isSome then acc
         else acc ++ [(mkKey lat lon d, r)])) k = _
      rw [ih]
      by_cases hk : k = mkKey lat lon d
      · subst hk
        have hmem : mkKey lat lon d ∈ ((d :: ds).map fun x => mkKey lat lon x) :=
          List.mem_cons_self _ _
        cases hacc : dictGet acc (mkKey lat lon d) with
        | some v =>
            rw [if_pos (by rfl), hacc]
            simp only [oget_some]
        | none =>
            rw [if_neg (by simp)]
            have hone : dictGet [(mkKey lat lon d, r)] (mkKey lat lon d) = some r := by
              simp [dictGet]
            rw [dictGet_append, hacc, hone]
            simp only [oget_none, oget_some]
            rw [if_pos hmem]
      · have hiff : (k ∈ ((d :: ds).map fun x => mkKey lat lon x)) ↔
            (k ∈ ds.map fun x => mkKey lat lon x) := by
          rw [List.map_cons, List.mem_cons]
          constructor
          · rintro (h | h)
            · exact absurd h hk
            · exact h
          · intro h
            exact Or.inr h
        cases hacc : dictGet acc (mkKey lat lon d) with
        | some v =>
            rw [if_pos (by rfl)]
            simp only [hiff]
        | none =>
            rw [if_neg (by simp)]
            have hne2 : ¬ mkKey lat lon d = k := fun hc => hk hc.symm
            have hone : dictGet [(mkKey lat lon d, r)] k = none := by
              simp [dictGet, hne2]
            rw [dictGet_append, hone]
            simp only [hiff]
            cases dictGet acc k <;> simp [oget]

/-- The record of the first location, in completion order, whose fetch
succeeded and whose five precision keys contain k. This transcribes the
claim's first-completed-wins rule, to be compared with what the code
builds. -/
def firstCompletedWriter :
    List (BeachLoc × Option WeatherRecord) → String → Option WeatherRecord
  | [], _ => none
  | (l, r?) :: t, k =>
      match r? with
      | some r =>
          if k ∈ precisionKeys l.lat l.lon then some r
          else firstCompletedWriter t k
      | none => firstCompletedWriter t k

theorem buildNewData_go (results : List (BeachLoc × Option WeatherRecord))
    (acc : WeatherCache) (k : String) :
    dictGet (results.foldl buildStep acc) k =
      oget (dictGet acc k) (firstCompletedWriter results k) := by
  induction results generalizing acc with
  | nil =>
      show dictGet acc k = oget (dictGet acc k) (firstCompletedWriter [] k)
      cases hx : dictGet acc k <;> simp [hx, firstCompletedWriter, oget]
  | cons p t ih =>
      rcases p with ⟨l, r?⟩
      cases r? with
      | none =>
          show dictGet (t.foldl buildStep acc) k = _
          rw [ih]
          rfl
      | some r =>
          show dictGet (t.foldl buildStep
            (insertRecordKeys l.lat l.lon r [7, 6, 5, 4, 3] acc)) k = _
          rw [ih, dictGet_insertRecordKeys]
          show oget (oget (dictGet acc k)
              (if k ∈ precisionKeys l.lat l.lon then some r else none))
            (firstCompletedWriter t k) = _
          by_cases hm : k ∈ precisionKeys l.lat l.lon
          · cases hx : dictGet acc k <;>
              simp [hx, oget, firstCompletedWriter, hm]
          · cases hx : dictGet acc k <;>
              simp [hx, oget, firstCompletedWriter, hm]

theorem dictGet_buildNewData (results : List (BeachLoc × Option WeatherRecord))
    (k : String) :
    dictGet (buildNewData results) k = firstCompletedWriter results k := by
  have h := buildNewData_go results [] k
  simpa [buildNewData, dictGet, oget] using h

theorem firstCompletedWriter_isSome (results : List (BeachLoc × Option WeatherRecord))
    (l : BeachLoc) (r : WeatherRecord) (k : String)
    (hmem : (l, some r) ∈ results) (hk : k ∈ precisionKeys l.lat l.lon) :
    (firstCompletedWriter results k).isSome = true := by
  induction results with
  | nil => simp at hmem
  | cons p t ih =>
      rcases List.mem_cons.mp hmem with h | h
      · subst h
        simp [firstCompletedWriter, hk]
      · rcases p with ⟨l2, r?⟩
        cases r? with
        | none =>
            show (firstCompletedWriter t k).isSome = true
            exact ih h
        | some r2 =>
            by_cases hm : k ∈ precisionKeys l2.lat l2.lon
            · simp [firstCompletedWriter, hm]
            · simp [firstCompletedWriter, hm]
              exact ih h

theorem insertRecordKeys_nodup (lat lon : ℚ) (r : WeatherRecord)
    (ds : List Nat) (acc : WeatherCache) (h : (keysOf acc).Nodup) :
    (keysOf (insertRecordKeys lat lon r ds acc)).Nodup := by
  induction ds generalizing acc with
  | nil => exact h
  | cons d ds ih =>
      show (keysOf (insertRecordKeys lat lon r ds
        (if (dictGet acc (mkKey lat lon d)).isSome then acc
         else acc ++ [(mkKey lat lon d, r)]))).Nodup
      apply ih
      cases hacc : dictGet acc (mkKey lat lon d) with
      | some v => simpa [hacc]
      | none =>
          have hmem : mkKey lat lon d ∉ keysOf acc :=
            (dictGet_none_iff acc (mkKey lat lon d)).mp hacc
          simp only [hacc, Option.isSome_none, Bool.false_eq_true, if_false]
          have hkeys : keysOf (acc ++ [(mkKey lat lon d, r)]) =
              keysOf acc ++ [mkKey lat lon d] := by
            simp [keysOf]
          rw [hkeys, List.nodup_append]
          refine ⟨h, List.nodup_singleton _, ?_⟩
          intro a ha hb
          rw [List.mem_singleton] at hb
          subst hb
          exact hmem ha

theorem buildNewData_nodup (results : List (BeachLoc × Option WeatherRecord)) :
    (keysOf (buildNewData results)).Nodup := by
  suffices h : ∀ acc : WeatherCache, (keysOf acc).Nodup →
      (keysOf (results.foldl buildStep acc)).Nodup by
    exact h [] List.nodup_nil
  induction results with
  | nil => intro acc hacc; exact hacc
  | cons p t ih =>
      intro acc hacc
      rcases p with ⟨l, r?⟩
      cases r? with
      | none => exact ih acc hacc
      | some r =>
          exact ih _ (insertRecordKeys_nodup l.lat l.lon r [7, 6, 5, 4, 3] acc hacc)

/-! ## Lemmas on the nearest-entry scan and the box scan -/

theorem scanFold_fst_le (lat lon tol : ℚ) (l : WeatherCache)
    (st : Option ℚ × WeatherRecord) (d0 : ℚ) (h : st.1 = some d0) :
    ∃ d1, (l.foldl (scanStep lat lon tol) st).1 = some d1 ∧ d1 ≤ d0 := by
  induction l generalizing st d0 with
  | nil => exact ⟨d0, h, le_refl _⟩
  | cons p t ih =>
      have hstep : ∃ d1, (scanStep lat lon tol st p).1 = some d1 ∧ d1 ≤ d0 := by
        rcases hsp : splitKey p.1 with _ | ⟨clat, clon⟩
        · refine ⟨d0, ?_, le_refl _⟩
          simp [scanStep, hsp, h]
        · simp only [scanStep, hsp, h]
          by_cases hlt : distSq lat lon clat clon < tol ^ 2 ∧
              distSq lat lon clat clon < d0
          · rw [if_pos hlt]
            exact ⟨_, rfl, le_of_lt hlt.2⟩
          · rw [if_neg hlt]
            exact ⟨d0, h, le_refl _⟩
      rcases hstep with ⟨d1, h1, hle1⟩
      rcases ih (scanStep lat lon tol st p) d1 h1 with ⟨d2, h2, hle2⟩
      exact ⟨d2, h2, le_trans hle2 hle1⟩

theorem scanFold_min (lat lon tol : ℚ) (l : WeatherCache)
    (st : Option ℚ × WeatherRecord) (q : String × WeatherRecord)
    (hq : q ∈ l) (c : ℚ × ℚ) (hc : splitKey q.1 = some c)
    (hlt : distSq lat lon c.1 c.2 < tol ^ 2) :
    ∃ d1, (l.foldl (scanStep lat lon tol) st).1 = some d1 ∧
      d1 ≤ distSq lat lon c.1 c.2 := by
  induction l generalizing st with
  | nil => simp at hq
  | cons p t ih =>
      rcases List.mem_cons.mp hq with hq1 | hq1
      · subst hq1
        have hstep : ∃ d1, (scanStep lat lon tol st q).1 = some d1 ∧
            d1 ≤ distSq lat lon c.1 c.2 := by
          rcases c with ⟨clat, clon⟩
          cases hst : st.1 with
          | none =>
              simp only [scanStep, hc, hst]
              rw [if_pos hlt]
              exact ⟨_, rfl, le_refl _⟩
          | some best =>
              simp only [scanStep, hc, hst]
              by_cases hlt2 : distSq lat lon clat clon < best
              · rw [if_pos ⟨hlt, hlt2⟩]
                exact ⟨_, rfl, le_refl _⟩
              · rw [if_neg (fun hand => hlt2 hand.2)]
                exact ⟨best, hst, le_of_not_lt hlt2⟩
        rcases hstep with ⟨d1, h1, hle⟩
        rcases scanFold_fst_le lat lon tol t _ d1 h1 with ⟨d2, h2, hle2⟩
        exact ⟨d2, h2, le_trans hle2 hle⟩
      · exact ih (scanStep lat lon tol st p) hq1

theorem scanFold_provenance (lat lon tol : ℚ) (l : WeatherCache)
    (st : Option ℚ × WeatherRecord) :
    l.foldl (scanStep lat lon tol) st = st ∨
      ∃ p, p ∈ l ∧ ∃ c : ℚ × ℚ, splitKey p.1 = some c ∧
        distSq lat lon c.1 c.2 < tol ^ 2 ∧
        l.foldl (scanStep lat lon tol) st =
          (some (distSq lat lon c.1 c.2), p.2) := by
  induction l generalizing st with
  | nil => exact Or.inl rfl
  | cons p t ih =>
      have hstep : scanStep lat lon tol st p = st ∨
          ∃ c : ℚ × ℚ, splitKey p.1 = some c ∧
            distSq lat lon c.1 c.2 < tol ^ 2 ∧
            scanStep lat lon tol st p = (some (distSq lat lon c.1 c.2), p.2) := by
        rcases hsp : splitKey p.1 with _ | ⟨clat, clon⟩
        · left
          simp [scanStep, hsp]
        · cases hst : st.1 with
          | none =>
              by_cases hlt : distSq lat lon clat clon < tol ^ 2
              · right
                refine ⟨(clat, clon), rfl, hlt, ?_⟩
                simp only [scanStep, hsp, hst]
                rw [if_pos hlt]
              · left
                simp only [scanStep, hsp, hst]
                rw [if_neg hlt]
          | some best =>
              by_cases hcond : distSq lat lon clat clon < tol ^ 2 ∧
                  distSq lat lon clat clon < best
              · right
                refine ⟨(clat, clon), rfl, hcond.1, ?_⟩
                simp only [scanStep, hsp, hst]
                rw [if_pos hcond]
              · left
                simp only [scanStep, hsp, hst]
                rw [if_neg hcond]
      rcases ih (scanStep lat lon tol st p) with h | ⟨p2, hp2, c2, hc2, hlt2, heq2⟩
      · rcases hstep with h1 | ⟨c, hc, hlt, heq⟩
        · left
          show List.foldl _ (scanStep lat lon tol st p) t = st
          rw [h, h1]
        · right
          refine ⟨p, List.mem_cons_self _ _, c, hc, hlt, ?_⟩
          show List.foldl _ (scanStep lat lon tol st p) t = _
          rw [h, heq]
      · right
        exact ⟨p2, List.mem_cons_of_mem _ hp2, c2, hc2, hlt2, heq2⟩

theorem scanFold_untouched (lat lon tol : ℚ) (l : WeatherCache)
    (st : Option ℚ × WeatherRecord) (hst : st.1 = none)
    (hall : ∀ q ∈ l, ∀ c : ℚ × ℚ, splitKey q.1 = some c →
      ¬ distSq lat lon c.1 c.2 < tol ^ 2) :
    l.foldl (scanStep lat lon tol) st = st := by
  induction l generalizing st with
  | nil => rfl
  | cons p t ih =>
      have hstep : scanStep lat lon tol st p = st := by
        rcases hsp : splitKey p.1 with _ | ⟨clat, clon⟩
        · simp [scanStep, hsp]
        · simp only [scanStep, hsp, hst]
          rw [if_neg (hall p (List.mem_cons_self _ _) (clat, clon) hsp)]
      show List.foldl _ (scanStep lat lon tol st p) t = st
      rw [hstep]
      exact ih st hst (fun q hq => hall q (List.mem_cons_of_mem _ hq))

theorem boxScan_eq_find (lat lon : ℚ) (cache : WeatherCache) :
    boxScan lat lon cache = (cache.find? (boxHit lat lon)).map Prod.snd := by
  induction cache with
  | nil => rfl
  | cons p t ih =>
      by_cases hb : boxHit lat lon p
      · simp [boxScan, hb, List.find?_cons_of_pos]
      · simp [boxScan, hb, List.find?_cons_of_neg, ih]

/-! ## Concrete fixtures for witnesses and counterexamples -/

/-- A cached record one hour old at clock 3600. -/
def recFresh : WeatherRecord := [("last_updated", FieldValue.time (some 0))]

/-- A freshly fetched record used as a fetch result. -/
def recNew : WeatherRecord := [("air_temp", FieldValue.num 25)]

/-- A run in which the single batch location's record is one hour old: the
staleness filter selects nothing. -/
def envFresh : RunEnv :=
  { csvExists := true, writable := true,
    locations := [⟨"Voidokilia", 36, 23⟩],
    existing := [("36.0_23.0", recFresh)],
    now := 3600,
    fetch := fun _ => none }

/-- A run with one stale location whose fetch succeeds. -/
def envOneStale : RunEnv :=
  { csvExists := true, writable := true,
    locations := [⟨"Voidokilia", 36, 23⟩],
    existing := [("oldkey", recFresh)],
    now := 3600,
    fetch := fun _ => some recNew }

/-- A run with a missing registry CSV. -/
def envNoCsv : RunEnv :=
  { csvExists := false, writable := true, locations := [], existing := [],
    now := 0, fetch := fun _ => none }

/-- A run with a stale location but an unwritable cache path. -/
def envUnwritable : RunEnv :=
  { csvExists := true, writable := false,
    locations := [⟨"Voidokilia", 36, 23⟩], existing := [], now := 0,
    fetch := fun _ => none }

/-- The update set a run computes: each stale location paired with its
fetch outcome, keyed through buildNewData. -/
def runUpdates (env : RunEnv) : WeatherCache :=
  buildNewData ((staleLocations env).map (fun l => (l, env.fetch l)))

/-! ## Claim theorems -/

/-- C1: for every existing cache C and every set U of successfully fetched
batch updates, the cache persisted at the end of a batch run is the
key-wise union of C and U in which U wins on every key it holds and every
other key of C keeps its exact prior record; no key of C is ever removed
by the run. Stated over the runs that reach the save (registry present,
a nonempty stale set, writable target). -/
theorem c1_merge_preserves (env : RunEnv)
    (hcsv : env.csvExists = true) (hstale : staleLocations env ≠ [])
    (hw : env.writable = true) :
    ∃ P, (updateWeatherCacheRun env).persisted = some P ∧
      (∀ k v, dictGet (runUpdates env) k = some v → dictGet P k = some v) ∧
      (∀ k, dictGet (runUpdates env) k = none →
        dictGet P k = dictGet env.existing k) ∧
      (∀ k v, dictGet env.existing k = some v →
        (dictGet P k).isSome = true) := by
  have hnodup : (keysOf (runUpdates env)).Nodup := buildNewData_nodup _
  refine ⟨dictUpdate env.existing (runUpdates env), ?_, ?_, ?_, ?_⟩
  · simp only [updateWeatherCacheRun, hcsv, hw, if_true]
    rw [if_neg hstale]
    rfl
  · intro k v hk
    rw [dictGet_dictUpdate env.existing (runUpdates env) hnodup k, hk, oget_some]
  · intro k hk
    rw [dictGet_dictUpdate env.existing (runUpdates env) hnodup k, hk, oget_none]
  · intro k v hk
    rw [dictGet_dictUpdate env.existing (runUpdates env) hnodup k]
    cases hn : dictGet (runUpdates env) k <;> simp [oget, hk, hn]

/-- Witness for C1 at a concrete one-stale-location run. -/
theorem c1_merge_preserves_witness :
    ∃ P, (updateWeatherCacheRun envOneStale).persisted = some P ∧
      (∀ k v, dictGet (runUpdates envOneStale) k = some v →
        dictGet P k = some v) ∧
      (∀ k, dictGet (runUpdates envOneStale) k = none →
        dictGet P k = dictGet envOneStale.existing k) ∧
      (∀ k v, dictGet envOneStale.existing k = some v →
        (dictGet P k).isSome = true) :=
  c1_merge_preserves envOneStale rfl (by decide) rfl

/-- C3 counterexample: the claim says a batch run in which the staleness
filter selects zero locations still persists the cache file; in the code
such a run returns at line 385 before the save, so nothing is written. -/
theorem c3_counterexample :
    staleLocations envFresh = [] ∧
    (updateWeatherCacheRun envFresh).persisted = none := by decide

/-- C3 amended: when the staleness filter selects zero locations the run
logs and returns early: no fetches, no write to the cache file, normal
exit; the file timestamp is not refreshed. -/
theorem c3_no_persist_when_fresh (env : RunEnv) (hcsv : env.csvExists = true)
    (hstale : staleLocations env = []) :
    updateWeatherCacheRun env =
      ⟨RunOutcome.normalReturn, none, 0, true⟩ := by
  simp [updateWeatherCacheRun, hcsv, hstale]

/-- Witness for the amended C3 at the all-fresh run. -/
theorem c3_no_persist_when_fresh_witness :
    updateWeatherCacheRun envFresh =
      ⟨RunOutcome.normalReturn, none, 0, true⟩ :=
  c3_no_persist_when_fresh envFresh rfl (by decide)

/-- C4: when every record addressed by the batch has a parseable
last_updated strictly inside the 6-hour freshness window, the run makes
zero get_weather_data invocations (hence zero weather/marine endpoint
requests) and leaves the cache file untouched. (The bulk NOAA
sea-temperature fetch of line 368 still runs, before the filter.) -/
theorem c4_idempotent (env : RunEnv) (hcsv : env.csvExists = true)
    (hfresh : ∀ l ∈ env.locations, ∃ r t,
      dictGet env.existing (primaryKey l.lat l.lon) = some r ∧
      dictGet r "last_updated" = some (FieldValue.time (some t)) ∧
      ((env.now - t : ℤ) : ℚ) / 3600 < 6) :
    (updateWeatherCacheRun env).fetchCalls = 0 ∧
    (updateWeatherCacheRun env).persisted = none ∧
    (updateWeatherCacheRun env).outcome = RunOutcome.normalReturn := by
  have hstale : staleLocations env = [] := by
    unfold staleLocations
    rw [List.filter_eq_nil_iff]
    intro l hl
    rcases hfresh l hl with ⟨r, t, h1, h2, h3⟩
    simp only [shouldUpdateBeach, h1, h2]
    have h4 : ((env.now : ℚ) - (t : ℚ)) / 3600 < 6 := by
      push_cast at h3
      exact h3
    simp [h3, h4]
  refine ⟨?_, ?_, ?_⟩ <;> simp [updateWeatherCacheRun, hcsv, hstale]

/-- Witness for C4 at the all-fresh run. -/
theorem c4_idempotent_witness :
    (updateWeatherCacheRun envFresh).fetchCalls = 0 ∧
    (updateWeatherCacheRun envFresh).persisted = none ∧
    (updateWeatherCacheRun envFresh).outcome = RunOutcome.normalReturn := by
  refine c4_idempotent envFresh rfl ?_
  intro l hl
  have hl2 : l = ⟨"Voidokilia", 36, 23⟩ := by
    simpa [envFresh] using hl
  subst hl2
  exact ⟨recFresh, 0, by decide, by decide, by decide⟩

/-- C8 counterexample: with the registry file missing, update_weather_cache
logs an error and returns normally (exit code 0 for the process); it does
not abort with a raised error. -/
theorem c8_counterexample :
    (updateWeatherCacheRun envNoCsv).outcome = RunOutcome.normalReturn ∧
    (updateWeatherCacheRun envNoCsv).outcome ≠ RunOutcome.raised := by decide

/-- C8 amended: a missing beach registry is swallowed: the run logs and
returns normally with exit code 0 and nothing written. Only the
save step is fatal: with stale work to write and an unwritable cache
path, open() raises and the run aborts. -/
theorem c8_fatal_behavior :
    (∀ env : RunEnv, env.csvExists = false →
      (updateWeatherCacheRun env).outcome = RunOutcome.normalReturn ∧
      (updateWeatherCacheRun env).persisted = none) ∧
    (∀ env : RunEnv, env.csvExists = true → staleLocations env ≠ [] →
      env.writable = false →
      (updateWeatherCacheRun env).outcome = RunOutcome.raised) := by
  constructor
  · intro env h
    constructor <;> simp [updateWeatherCacheRun, h]
  · intro env h1 h2 h3
    simp only [updateWeatherCacheRun, h1, h3, if_true]
    rw [if_neg h2]
    rfl

/-- Witness for the amended C8 at the two concrete runs. -/
theorem c8_fatal_behavior_witness :
    ((updateWeatherCacheRun envNoCsv).outcome = RunOutcome.normalReturn ∧
      (updateWeatherCacheRun envNoCsv).persisted = none) ∧
    (updateWeatherCacheRun envUnwritable).outcome = RunOutcome.raised :=
  ⟨c8_fatal_behavior.1 envNoCsv rfl,
   c8_fatal_behavior.2 envUnwritable rfl (by decide) rfl⟩

/-- C10: per successfully fetched location the identical record enters the
update set under the five keys round(lat,d)_round(lon,d) for d = 7, 6, 5,
4, 3, and a key written by an earlier-completed location is never
overwritten: the update set at any key is exactly the record of the first
completed success whose five keys contain it, and every such key is
present. -/
theorem c10_first_completed_wins
    (results : List (BeachLoc × Option WeatherRecord)) :
    (∀ k, dictGet (buildNewData results) k = firstCompletedWriter results k) ∧
    (∀ l r k, (l, some r) ∈ results → k ∈ precisionKeys l.lat l.lon →
      (dictGet (buildNewData results) k).isSome = true) := by
  constructor
  · exact fun k => dictGet_buildNewData results k
  · intro l r k hmem hk
    rw [dictGet_buildNewData]
    exact firstCompletedWriter_isSome results l r k hmem hk

/-- Witness for C10 at two colliding locations: the first-completed record
is kept. -/
theorem c10_first_completed_wins_witness :
    (dictGet (buildNewData
        [(⟨"A", 36, 23⟩, some recNew), (⟨"B", 36, 23⟩, some recFresh)])
      (mkKey 36 23 6)).isSome = true ∧
    dictGet (buildNewData
        [(⟨"A", 36, 23⟩, some recNew), (⟨"B", 36, 23⟩, some recFresh)])
      (mkKey 36 23 6) =
      firstCompletedWriter
        [(⟨"A", 36, 23⟩, some recNew), (⟨"B", 36, 23⟩, some recFresh)]
        (mkKey 36 23 6) :=
  ⟨(c10_first_completed_wins _).2 ⟨"A", 36, 23⟩ recNew (mkKey 36 23 6)
      (by decide) (by decide),
   (c10_first_completed_wins _).1 (mkKey 36 23 6)⟩

/-- C2 counterexample: the save step is a single direct write to the
canonical path; it is not a write-to-temporary-file-then-rename, so the
claimed pattern does not describe the code. -/
theorem c2_counterexample :
    saveCacheEffects "cache-content" =
      [FsOp.write cacheFileName "cache-content"] ∧
    ¬ ∃ tmp c, saveCacheEffects "cache-content" =
      [FsOp.write tmp c, FsOp.rename tmp cacheFileName] := by
  constructor
  · rfl
  · rintro ⟨tmp, c, h⟩
    have hlen := congrArg List.length h
    simp [saveCacheEffects] at hlen

/-- C2 amended: save opens the canonical path directly and writes the full
serialized mapping in place, with no temporary file and no rename; because
open with mode w truncates at once, an interruption mid-write can leave
the canonical file holding a proper prefix of the new content: neither the
previous valid cache nor the complete new one. -/
theorem c2_direct_write_crash :
    (∀ c : String, saveCacheEffects c = [FsOp.write cacheFileName c]) ∧
    (∃ k : Nat, crashedFile "NEWCACHE" k ≠ "OLDCACHE" ∧
      crashedFile "NEWCACHE" k ≠ "NEWCACHE" ∧ crashedFile "NEWCACHE" k ≠ "") := by
  constructor
  · intro c
    rfl
  · exact ⟨3, by decide, by decide, by decide⟩

/-! ## Record-shape lemmas for the fetch path -/

theorem keysOf_mapset {α : Type} (d : List (String × α)) (k : String) (v : α) :
    keysOf (d.map (fun p => if p.1 = k then (k, v) else p)) = keysOf d := by
  induction d with
  | nil => rfl
  | cons p t ih =>
      rw [List.map_cons, keysOf_cons, keysOf_cons, ih]
      by_cases hp : p.1 = k
      · rw [if_pos hp]
        simp [hp]
      · rw [if_neg hp]

theorem keysOf_setKey_of_mem {α : Type} (d : List (String × α)) (k : String)
    (v : α) (h : k ∈ keysOf d) : keysOf (setKey d k v) = keysOf d := by
  unfold setKey
  rw [if_pos ((mem_keysOf_iff_any d k).mp h)]
  exact keysOf_mapset d k v

theorem keysOf_setKey_fieldNames (r : WeatherRecord) (k : String)
    (v : FieldValue) (hr : keysOf r = fieldNames) (hk : k ∈ fieldNames) :
    keysOf (setKey r k v) = fieldNames := by
  rw [keysOf_setKey_of_mem r k v (by rw [hr]; exact hk), hr]

theorem keysOf_applyWeather (r : WeatherRecord) (s : Nat) (b : WeatherBody)
    (hr : keysOf r = fieldNames) : keysOf (applyWeather r s b) = fieldNames := by
  unfold applyWeather
  by_cases hs : s = 200
  · rw [if_pos hs]
    exact keysOf_setKey_fieldNames _ _ _
      (keysOf_setKey_fieldNames _ _ _
        (keysOf_setKey_fieldNames _ _ _ hr (by decide)) (by decide)) (by decide)
  · rw [if_neg hs]
    exact hr

theorem keysOf_applyMarine (r : WeatherRecord) (s : Nat) (b : MarineBody)
    (hr : keysOf r = fieldNames) : keysOf (applyMarine r s b) = fieldNames := by
  unfold applyMarine
  by_cases hs : s = 200
  · rw [if_pos hs]
    exact keysOf_setKey_fieldNames _ _ _
      (keysOf_setKey_fieldNames _ _ _
        (keysOf_setKey_fieldNames _ _ _ hr (by decide)) (by decide)) (by decide)
  · rw [if_neg hs]
    exact hr

theorem runAttempt_keys (env : FetchEnv) (nm : String) (lat lon : ℚ)
    (grid : Option (List GridPoint)) (now : ℤ) (i : Nat) (d : WeatherRecord)
    (h : runAttempt env nm lat lon grid now i = some d) :
    keysOf d = fieldNames := by
  cases hw : env.weather i with
  | timeout => simp [runAttempt, hw] at h
  | connError => simp [runAttempt, hw] at h
  | resp ws wb =>
      cases hm : env.marine i with
      | timeout => simp [runAttempt, hw, hm] at h
      | connError => simp [runAttempt, hw, hm] at h
      | resp ms mb =>
          simp only [runAttempt, hw, hm, Option.some_inj] at h
          rw [← h]
          apply keysOf_setKey_fieldNames
          · exact keysOf_applyMarine _ _ _ (keysOf_applyWeather _ _ _ rfl)
          · decide

theorem fetchLoop_result_some (env : FetchEnv) (nm : String) (lat lon : ℚ)
    (grid : Option (List GridPoint)) (now : ℤ) :
    ∀ rem i d, (fetchLoop env nm lat lon grid now i rem).result = some d →
      ∃ j, runAttempt env nm lat lon grid now j = some d := by
  intro rem
  induction rem with
  | zero =>
      intro i d h
      simp [fetchLoop] at h
  | succ rm ih =>
      intro i d h
      cases hra : runAttempt env nm lat lon grid now i with
      | some r =>
          simp only [fetchLoop, hra] at h
          exact ⟨i, by rw [hra, h]⟩
      | none =>
          by_cases hrm : rm = 0
          · subst hrm
            simp [fetchLoop, hra] at h
          · simp only [fetchLoop, hra, if_neg hrm] at h
            exact ih (i + 1) d h

/-- HTTP world where weather and marine endpoints both answer 500 with an
empty body and no sea-temperature source is available. -/
def env500 : FetchEnv :=
  { weather := fun _ => HttpResult.resp 500 ⟨none, none, none⟩,
    marine := fun _ => HttpResult.resp 500 ⟨none, none, none⟩,
    seaFallback := fun _ => none }

/-- C9 counterexample: all eleven fields are present in a successful fetch,
but the sentinel stored for a value that could not be obtained is the
string N/A, not the string "unavailable" the claim names. -/
theorem c9_counterexample :
    (getWeatherData env500 "Voidokilia" 36 23 none 0).result.isSome = true ∧
    dictGet ((getWeatherData env500 "Voidokilia" 36 23 none 0).result.getD [])
      "air_temp" = some (FieldValue.str "N/A") ∧
    FieldValue.str "N/A" ≠ FieldValue.str "unavailable" :=
  ⟨rfl, rfl, by decide⟩

/-- C9 amended: every record a successful fetch returns carries exactly the
eleven fields of the schema, in order, none absent; a value that could not
be obtained is the explicit string sentinel N/A rather than being omitted
(when both endpoints answer non-200 and no sea temperature is available,
the returned record is exactly the initialized one: every data field holds
the sentinel). -/
theorem c9_record_shape :
    (∀ (env : FetchEnv) (nm : String) (lat lon : ℚ)
        (grid : Option (List GridPoint)) (now : ℤ) (d : WeatherRecord),
      (getWeatherData env nm lat lon grid now).result = some d →
      keysOf d = fieldNames) ∧
    (∀ (nm : String) (lat lon : ℚ) (now : ℤ),
      (getWeatherData env500 nm lat lon none now).result =
        some (initRecord nm lat lon now) ∧
      dictGet (initRecord nm lat lon now) "air_temp" = some na ∧
      dictGet (initRecord nm lat lon now) "wind_speed" = some na ∧
      dictGet (initRecord nm lat lon now) "wind_direction" = some na ∧
      dictGet (initRecord nm lat lon now) "wave_height" = some na ∧
      dictGet (initRecord nm lat lon now) "wave_direction" = some na ∧
      dictGet (initRecord nm lat lon now) "wave_period" = some na ∧
      dictGet (initRecord nm lat lon now) "sea_temp" = some na) := by
  constructor
  · intro env nm lat lon grid now d h
    rcases fetchLoop_result_some env nm lat lon grid now 3 0 d h with ⟨j, hj⟩
    exact runAttempt_keys env nm lat lon grid now j d hj
  · intro nm lat lon now
    exact ⟨rfl, rfl, rfl, rfl, rfl, rfl, rfl, rfl⟩

/-- Witness for the amended C9 at the all-500 fetch. -/
theorem c9_record_shape_witness :
    keysOf ((getWeatherData env500 "Voidokilia" 36 23 none 0).result.getD [])
      = fieldNames := by
  have hres : (getWeatherData env500 "Voidokilia" 36 23 none 0).result =
      some (initRecord "Voidokilia" 36 23 0) :=
    (c9_record_shape.2 "Voidokilia" 36 23 0).1
  rw [hres]
  exact c9_record_shape.1 env500 "Voidokilia" 36 23 none 0 _ hres

/-! ## C6 and C7: retry behavior and the one-provider-down scenario -/

/-- Skipped fetch failures do not disturb the rest of the batch: the update
set depends only on the successful results. -/
theorem buildNewData_filter (results : List (BeachLoc × Option WeatherRecord)) :
    buildNewData results =
      buildNewData (results.filter (fun p => p.2.isSome)) := by
  suffices h : ∀ acc : WeatherCache, results.foldl buildStep acc =
      (results.filter (fun p => p.2.isSome)).foldl buildStep acc from h []
  induction results with
  | nil => intro acc; rfl
  | cons p t ih =>
      intro acc
      rcases p with ⟨l, r?⟩
      cases r? with
      | none =>
          rw [List.filter_cons_of_neg (by simp)]
          exact ih acc
      | some r =>
          rw [List.filter_cons_of_pos (by simp)]
          exact ih _

/-- HTTP world where the atmospheric endpoint raises a timeout on every
attempt and the marine endpoint would answer 200. -/
def envTimeout : FetchEnv :=
  { weather := fun _ => HttpResult.timeout,
    marine := fun _ => HttpResult.resp 200 ⟨none, none, none⟩,
    seaFallback := fun _ => none }

/-- C6 counterexample: a 5xx status on the weather endpoint is not
retried: the fetch finishes on its first attempt and still returns a
record (with the affected fields at the sentinel), contradicting the
claim that a 5xx is retried up to 3 times. -/
theorem c6_counterexample :
    (getWeatherData env500 "Voidokilia" 36 23 none 0).attempts = 1 ∧
    (getWeatherData env500 "Voidokilia" 36 23 none 0).result.isSome = true ∧
    env500.weather 0 = HttpResult.resp 500 ⟨none, none, none⟩ :=
  ⟨rfl, rfl, rfl⟩

/-- C6 amended: only raised failures (timeouts, connection errors) are
retried, with 3 total attempts and backoff sleeps of 2 * 2 ^ i seconds
before retry attempt i (4 s then 8 s); a 5xx response is not retried.
After the final failed attempt the location's fetch returns None, and the
batch's result processing skips failed locations and continues with the
rest. -/
theorem c6_retry_behavior :
    (∀ (env : FetchEnv) (nm : String) (lat lon : ℚ)
        (grid : Option (List GridPoint)) (now : ℤ),
      (∀ i, i < 3 → env.weather i = HttpResult.timeout ∨
        env.weather i = HttpResult.connError) →
      getWeatherData env nm lat lon grid now = ⟨none, 3, [4, 8]⟩) ∧
    (∀ results : List (BeachLoc × Option WeatherRecord),
      buildNewData results =
        buildNewData (results.filter (fun p => p.2.isSome))) := by
  constructor
  · intro env nm lat lon grid now h
    have ra0 : runAttempt env nm lat lon grid now 0 = none := by
      rcases h 0 (by norm_num) with h0 | h0 <;> simp [runAttempt, h0]
    have ra1 : runAttempt env nm lat lon grid now 1 = none := by
      rcases h 1 (by norm_num) with h1 | h1 <;> simp [runAttempt, h1]
    have ra2 : runAttempt env nm lat lon grid now 2 = none := by
      rcases h 2 (by norm_num) with h2 | h2 <;> simp [runAttempt, h2]
    show fetchLoop env nm lat lon grid now 0 3 = ⟨none, 3, [4, 8]⟩
    simp only [fetchLoop, ra0, ra1, ra2]
    norm_num
  · exact buildNewData_filter

/-- Witness for the amended C6: an all-timeout fetch and a batch with one
failed and one successful location. -/
theorem c6_retry_behavior_witness :
    getWeatherData envTimeout "Voidokilia" 36 23 none 0 = ⟨none, 3, [4, 8]⟩ ∧
    buildNewData [(⟨"A", 36, 23⟩, none), (⟨"B", 37, 24⟩, some recNew)] =
      buildNewData (List.filter (fun p => p.2.isSome)
        [(⟨"A", 36, 23⟩, none), (⟨"B", 37, 24⟩, some recNew)]) :=
  ⟨c6_retry_behavior.1 envTimeout "Voidokilia" 36 23 none 0
      (fun _ _ => Or.inl rfl),
   c6_retry_behavior.2 _⟩

/-- C7 counterexample: when every attempt against the atmospheric endpoint
raises a timeout while the marine endpoint would answer 200, the fetch
returns None after its three attempts: no record (with or without wave
data) is produced or persisted for that location, contrary to the claim. -/
theorem c7_counterexample :
    (getWeatherData envTimeout "Voidokilia" 36 23 none 0).result = none ∧
    envTimeout.marine 0 = HttpResult.resp 200 ⟨none, none, none⟩ ∧
    envTimeout.weather 0 = HttpResult.timeout :=
  ⟨rfl, rfl, rfl⟩

/-- HTTP world for the one-provider-down scenario: the atmospheric
endpoint answers 500 (an HTTP error status, which raises nothing) and the
marine endpoint answers 200 with body mb. -/
def envAtmosDown (mb : MarineBody) : FetchEnv :=
  { weather := fun _ => HttpResult.resp 500 ⟨none, none, none⟩,
    marine := fun _ => HttpResult.resp 200 mb,
    seaFallback := fun _ => none }

/-- A one-location batch run over an empty cache whose fetch yields res. -/
def runEnvWith (res : Option WeatherRecord) : RunEnv :=
  { csvExists := true, writable := true,
    locations := [⟨"Voidokilia", 36, 23⟩], existing := [], now := 0,
    fetch := fun _ => res }

/-- A one-location run over an empty cache with a successful fetch result
persists that record under the location's primary key. -/
theorem run_persists_single (res : WeatherRecord) :
    (updateWeatherCacheRun (runEnvWith (some res))).outcome =
      RunOutcome.normalReturn ∧
    dictGet ((updateWeatherCacheRun (runEnvWith (some res))).persisted.getD [])
      (primaryKey 36 23) = some res := by
  have hout : (updateWeatherCacheRun (runEnvWith (some res))).outcome =
      RunOutcome.normalReturn := rfl
  have hpers : (updateWeatherCacheRun (runEnvWith (some res))).persisted =
      some (dictUpdate []
        (buildNewData [(⟨"Voidokilia", 36, 23⟩, some res)])) := rfl
  refine ⟨hout, ?_⟩
  rw [hpers, Option.getD_some]
  rw [dictGet_dictUpdate []
    (buildNewData [(⟨"Voidokilia", 36, 23⟩, some res)])
    (buildNewData_nodup _) (primaryKey 36 23)]
  rw [dictGet_buildNewData]
  have hmem : primaryKey 36 23 ∈ precisionKeys 36 23 :=
    List.mem_map.mpr ⟨6, by decide, rfl⟩
  simp [firstCompletedWriter, hmem, oget, dictGet]

/-- C7 amended: the scenario holds when the atmospheric endpoint fails
with a non-200 status (which raises no exception): the first attempt
already returns a record whose air_temp/wind fields hold the sentinel and
whose wave fields are populated from the marine body, and the engine
persists that record under the location's keys without aborting. When the
atmospheric request raises on every attempt instead, no record is
produced at all (the marine endpoint is never consulted). -/
theorem c7_provider_down (mb : MarineBody) :
    (getWeatherData (envAtmosDown mb) "Voidokilia" 36 23 none 0).attempts = 1 ∧
    (getWeatherData (envAtmosDown mb) "Voidokilia" 36 23 none 0).result.isSome
      = true ∧
    dictGet ((getWeatherData (envAtmosDown mb) "Voidokilia" 36 23 none
        0).result.getD []) "air_temp" = some na ∧
    dictGet ((getWeatherData (envAtmosDown mb) "Voidokilia" 36 23 none
        0).result.getD []) "wind_speed" = some na ∧
    dictGet ((getWeatherData (envAtmosDown mb) "Voidokilia" 36 23 none
        0).result.getD []) "wind_direction" = some na ∧
    dictGet ((getWeatherData (envAtmosDown mb) "Voidokilia" 36 23 none
        0).result.getD []) "wave_height" = some (roundOpt1 mb.wave_height) ∧
    dictGet ((getWeatherData (envAtmosDown mb) "Voidokilia" 36 23 none
        0).result.getD []) "wave_direction" = some (rawOpt mb.wave_direction) ∧
    dictGet ((getWeatherData (envAtmosDown mb) "Voidokilia" 36 23 none
        0).result.getD []) "wave_period" = some (roundOpt1 mb.wave_period) ∧
    (updateWeatherCacheRun (runEnvWith
        (getWeatherData (envAtmosDown mb) "Voidokilia" 36 23 none
          0).result)).outcome = RunOutcome.normalReturn ∧
    dictGet ((updateWeatherCacheRun (runEnvWith
        (getWeatherData (envAtmosDown mb) "Voidokilia" 36 23 none
          0).result)).persisted.getD []) (primaryKey 36 23) =
      (getWeatherData (envAtmosDown mb) "Voidokilia" 36 23 none 0).result := by
  rcases mb with ⟨wh, wd, wp⟩
  exact ⟨rfl, rfl, rfl, rfl, rfl, rfl, rfl, rfl,
    (run_persists_single _).1, (run_persists_single _).2⟩

/-! ## C5: the fuzzy lookup matchers -/

/-- Record stored at the first (farther) cache entry of the C5
counterexample. -/
def rec1 : WeatherRecord := [("air_temp", FieldValue.num 1)]

/-- Record stored at the second (closer) cache entry of the C5
counterexample. -/
def rec2 : WeatherRecord := [("air_temp", FieldValue.num 2)]

/-- Two-entry cache: the first entry is 0.0004 degrees from the query
below, the second only 0.0001 degrees. -/
def cacheCE : WeatherCache := [("36.0005_23.0", rec1), ("36.0_23.0", rec2)]

/-- C5 counterexample: at query (36.0001, 23.0), find_weather_for_beach
returns the FIRST entry inside its 0.001-degree box (rec1), although the
second entry (rec2) is strictly closer: the lookup does not return the
closest entry, contrary to the claimed nearest-neighbor strategy (and
neither lookup ever tries 7-decimal keys or a fixed-decimal format). -/
theorem c5_counterexample :
    findWeatherForBeach (360001/10000) 23 cacheCE = some rec1 ∧
    rec1 ≠ rec2 ∧
    splitKey "36.0005_23.0" = some (360005/10000, 23) ∧
    splitKey "36.0_23.0" = some (36, 23) ∧
    distSq (360001/10000) 23 36 23 <
      distSq (360001/10000) 23 (360005/10000) 23 := by decide

/-- C5 amended: the two lookups never mutate the cache (they are pure
reads) and behave as follows. find_closest_weather_match returns the empty
dict on an empty cache; it tries rounded keys only at precisions 6, 5, 4,
3 in round-then-string form (no precision 7, no fixed-decimal form, no
separate exact-match step) and returns the first hit; otherwise it scans
all parseable entries and returns one at minimal squared distance among
those strictly within tolerance (default 0.01 degrees, Euclidean in
degrees, not km), the empty dict when none qualifies.
find_weather_for_beach tries the exact key and the full-precision key and
then returns the FIRST (not closest) entry within a 0.001-degree box, else
None. -/
theorem c5_lookup_behavior :
    (∀ (lat lon tol : ℚ), findClosestWeatherMatch lat lon [] tol = []) ∧
    (∀ (lat lon tol : ℚ) (cache : WeatherCache) (r : WeatherRecord),
      cache ≠ [] → findByRounding lat lon cache [6, 5, 4, 3] = some r →
      findClosestWeatherMatch lat lon cache tol = r) ∧
    (∀ (lat lon tol : ℚ) (cache : WeatherCache),
      cache ≠ [] → findByRounding lat lon cache [6, 5, 4, 3] = none →
      (∀ q ∈ cache, ∀ c : ℚ × ℚ, splitKey q.1 = some c →
        ¬ distSq lat lon c.1 c.2 < tol ^ 2) →
      findClosestWeatherMatch lat lon cache tol = []) ∧
    (∀ (lat lon tol : ℚ) (cache : WeatherCache) (q : String × WeatherRecord)
        (c : ℚ × ℚ),
      cache ≠ [] → findByRounding lat lon cache [6, 5, 4, 3] = none →
      q ∈ cache → splitKey q.1 = some c → distSq lat lon c.1 c.2 < tol ^ 2 →
      ∃ p ∈ cache, ∃ cp : ℚ × ℚ, splitKey p.1 = some cp ∧
        distSq lat lon cp.1 cp.2 < tol ^ 2 ∧
        findClosestWeatherMatch lat lon cache tol = p.2 ∧
        (∀ q2 ∈ cache, ∀ c2 : ℚ × ℚ, splitKey q2.1 = some c2 →
          distSq lat lon c2.1 c2.2 < tol ^ 2 →
          distSq lat lon cp.1 cp.2 ≤ distSq lat lon c2.1 c2.2)) ∧
    (∀ (lat lon : ℚ) (cache : WeatherCache),
      dictGet cache (fmtQ lat ++ "_" ++ fmtQ lon) = none →
      findWeatherForBeach lat lon cache =
        (cache.find? (boxHit lat lon)).map Prod.snd) := by
  refine ⟨?_, ?_, ?_, ?_, ?_⟩
  · intro lat lon tol
    rfl
  · intro lat lon tol cache r h1 h2
    simp [findClosestWeatherMatch, h1, h2]
  · intro lat lon tol cache h1 h2 hall
    have h := scanFold_untouched lat lon tol cache (none, []) rfl hall
    simp [findClosestWeatherMatch, h1, h2, scanClosest, h]
  · intro lat lon tol cache q c h1 h2 hq hc hlt
    rcases scanFold_provenance lat lon tol cache (none, []) with
      hp | ⟨p, hp, cp, hcp, hltp, heq⟩
    · exfalso
      rcases scanFold_min lat lon tol cache (none, []) q hq c hc hlt with
        ⟨d1, hd1, _⟩
      rw [hp] at hd1
      simp at hd1
    · refine ⟨p, hp, cp, hcp, hltp, ?_, ?_⟩
      · simp [findClosestWeatherMatch, h1, h2, scanClosest, heq]
      · intro q2 hq2 c2 hc2 hlt2
        rcases scanFold_min lat lon tol cache (none, []) q2 hq2 c2 hc2 hlt2 with
          ⟨d1, hd1, hle⟩
        rw [heq] at hd1
        simp only at hd1
        rw [Option.some_inj] at hd1
        rw [hd1]
        exact hle
  · intro lat lon cache h
    simp [findWeatherForBeach, h, boxScan_eq_find]

/-- Cache with a single 6-decimal-precision key, hit by the rounding
fallback at a 7-decimal query. -/
def cacheW : WeatherCache := [("36.123457_23.0", rec1)]

/-- Witness for the amended C5: the rounding fallback at precision 6
resolves the query. -/
theorem c5_lookup_behavior_witness :
    findClosestWeatherMatch (361234567/10000000) 23 cacheW (1/100) = rec1 :=
  c5_lookup_behavior.2.1 (361234567/10000000) 23 (1/100) cacheW rec1
    (by decide) (by decide)
